import Mathlib

/-!
Shallow embedding of the task-orchestration core of the voice MCP server
(source file src/claude-code.ts, together with the command-runner collaborator
src/execute.ts).  External effects — clock reads, tmux liveness probes, pane
captures, subprocess exit codes — are passed to each operation as explicit
observation arguments, and the in-memory task registry is threaded
functionally through every operation.
-/

namespace VoiceMcp

/-- Models the JavaScript expression `x || d` on an optional number field:
both `undefined` and `0` are falsy in JavaScript, so both fall back to `d`. -/
def jsOrNat : Option Nat → Nat → Nat
  | some e, d => if e = 0 then d else e
  | none, d => d

/-- Models the JavaScript expression `s || d` on strings: the empty string is
falsy in JavaScript and falls back to `d`. -/
def jsOrString (s d : String) : String :=
  if s = "" then d else s

/-! ### Base64 transport encoding

claude-code.ts line 57 encodes the prompt with `Buffer.from(prompt).toString`
using the base64 encoding, and the launch command built on line 60 pipes the
encoded text through `base64 -d` inside the tmux session.  Both steps are
modelled here at the byte level: a byte is a `Nat` below 256. -/

/-- The standard base64 alphabet used by both the Node encoder and the
`base64 -d` decoder in the launch command. -/
def b64Alphabet : List Char :=
  "ABCDEFGHIJKLMNOPQRSTUVWXYZabcdefghijklmnopqrstuvwxyz0123456789+/".toList

/-- The alphabet character for a sextet value. -/
def sextetChar (n : Nat) : Char := b64Alphabet.getD n 'A'

/-- Helper: position of a character in a character list, counting from i. -/
def charSextetAux : List Char → Nat → Char → Nat
  | [], _, _ => 0
  | a :: rest, i, c => if a = c then i else charSextetAux rest (i + 1) c

/-- The sextet value recovered by the decoder for an alphabet character. -/
def charSextet (c : Char) : Nat := charSextetAux b64Alphabet 0 c

/-- Byte-level model of the base64 encode step on line 57 of claude-code.ts:
groups of three bytes become four alphabet characters, a trailing group of
two or one byte is padded with one or two `=` characters. -/
def b64EncodeBytes : List Nat → List Char
  | a :: b :: c :: rest =>
    sextetChar (a / 4) :: sextetChar ((a % 4) * 16 + b / 16) ::
      sextetChar ((b % 16) * 4 + c / 64) :: sextetChar (c % 64) :: b64EncodeBytes rest
  | [a, b] => [sextetChar (a / 4), sextetChar ((a % 4) * 16 + b / 16),
      sextetChar ((b % 16) * 4), '=']
  | [a] => [sextetChar (a / 4), sextetChar ((a % 4) * 16), '=', '=']
  | [] => []

/-- Byte-level model of the `base64 -d` decode step in the launch command on
line 60 of claude-code.ts: four characters yield three bytes, a group ending
in one or two `=` padding characters yields two bytes or one byte. -/
def b64DecodeChars : List Char → List Nat
  | w :: x :: y :: z :: rest =>
    if z = '=' then
      if y = '=' then
        [charSextet w * 4 + charSextet x / 16]
      else
        [charSextet w * 4 + charSextet x / 16,
         (charSextet x % 16) * 16 + charSextet y / 4]
    else
      (charSextet w * 4 + charSextet x / 16) ::
        ((charSextet x % 16) * 16 + charSextet y / 4) ::
        ((charSextet y % 4) * 64 + charSextet z) :: b64DecodeChars rest
  | _ => []

/-! ### Data model (claude-code.ts lines 6 to 31) -/

/-- The four task states of claude-code.ts line 7. -/
inductive TaskStatus where
  | running
  | completed
  | failed
  | stopped
deriving DecidableEq

/-- The Task record of claude-code.ts lines 9 to 18. -/
structure ClaudeCodeTask where
  taskId : String
  prompt : String
  workingDirectory : String
  status : TaskStatus
  startTime : Nat
  endTime : Option Nat
  exitCode : Option Nat
  tmuxSession : String
deriving DecidableEq

/-- Result shape of the executeCommand collaborator (src/execute.ts): trimmed
stdout and stderr plus an exit code; failures are represented as a nonzero
exit code, never thrown. -/
structure ExecResult where
  stdout : String
  stderr : String
  exitCode : Nat
deriving DecidableEq

/-- The in-memory task registry of claude-code.ts line 21, modelled as an
insertion-ordered association list with JavaScript Map set/get semantics. -/
abbrev TaskMap := List (String × ClaudeCodeTask)

/-- Map lookup: first (hence, with keys kept unique by mapSet, only) binding. -/
def mapGet : TaskMap → String → Option ClaudeCodeTask
  | [], _ => none
  | (k, v) :: rest, key => if k = key then some v else mapGet rest key

/-- JavaScript Map set: replace an existing binding in place, else append. -/
def mapSet : TaskMap → String → ClaudeCodeTask → TaskMap
  | [], key, val => [(key, val)]
  | (k, v) :: rest, key, val =>
    if k = key then (key, val) :: rest else (k, v) :: mapSet rest key val

/-- claude-code.ts lines 24 to 26: the task id is derived from the observed
millisecond clock value of one Date.now() call. -/
def generateTaskId (nowMs : Nat) : String := "task-" ++ toString nowMs

/-- claude-code.ts lines 29 to 31. -/
def getTmuxSession (taskId : String) : String := "claude-" ++ taskId

/-- The lowercase status words used in error messages of the source. -/
def statusString : TaskStatus → String
  | .running => "running"
  | .completed => "completed"
  | .failed => "failed"
  | .stopped => "stopped"

/-- Trimmed stdout of the probe command
`tmux has-session -t S 2>/dev/null && echo running || echo done`:
the shell prints running when the session exists and done when it does not.
executeCommand trims the output, so the extra trim call in the source is the
identity on these two values. -/
def hasSessionStdout (alive : Bool) : String :=
  if alive then "running" else "done"

/-- Trimmed stdout of the capture command
`tmux capture-pane ... 2>/dev/null || echo "(session ended)"`: the argument
is some text when capture-pane succeeded and none when it failed, in which
case the shell fallback prints the sentinel. -/
def captureStdout : Option String → String
  | some s => s
  | none => "(session ended)"

/-- The reconciliation step shared by the read operations (claude-code.ts
lines 122 to 125, 158 to 161, 193 to 196, 227 to 230): a task believed
running whose tmux session is gone becomes completed with endTime stamped. -/
def reconciledTask (task : ClaudeCodeTask) (alive : Bool) (now : Nat) :
    ClaudeCodeTask :=
  if task.status = .running ∧ hasSessionStdout alive = "done" then
    { task with status := .completed, endTime := some now }
  else task

/-- In-place mutation of the task object held in the registry, as performed by
assignments such as task.status = ... in the source. -/
def markTask (tasks : TaskMap) (taskId : String) (st : TaskStatus) (t : Nat) :
    TaskMap :=
  match mapGet tasks taskId with
  | some task => mapSet tasks taskId { task with status := st, endTime := some t }
  | none => tasks

/-! ### Operation result shapes -/

/-- Return shape of startClaudeCodeTask (claude-code.ts line 41). -/
structure StartReturn where
  taskId : String
  status : TaskStatus
  output : Option String
deriving DecidableEq

/-- Return shape of getClaudeCodeStatus (claude-code.ts line 113). -/
structure StatusReturn where
  status : TaskStatus
  runtimeSeconds : Nat
  lastOutput : String
deriving DecidableEq

/-- Return shape of getClaudeCodeOutput (claude-code.ts line 149). -/
structure OutputReturn where
  output : String
  status : TaskStatus
deriving DecidableEq

/-- Return shape of sendToClaudeCode (claude-code.ts line 180). -/
structure SendReturn where
  sent : Bool
  error : Option String
deriving DecidableEq

/-- Return shape of stopClaudeCodeTask (claude-code.ts line 250). -/
structure StopReturn where
  stopped : Bool
  error : Option String
deriving DecidableEq

/-- One entry of the listClaudeCodeSessions result (claude-code.ts 215-221). -/
structure SessionSummary where
  taskId : String
  prompt : String
  status : TaskStatus
  runtimeSeconds : Nat
  workingDirectory : String
deriving DecidableEq

/-- Generic discriminator for Except results. -/
def exceptOk {ε α : Type} : Except ε α → Bool
  | .ok _ => true
  | .error _ => false

/-! ### The six operations (claude-code.ts lines 36 to 267) -/

/-- getClaudeCodeStatus, claude-code.ts lines 111 to 141: look the task up,
reconcile a running task against session liveness, compute runtimeSeconds as
Math.floor(((endTime || now) - startTime) / 1000), and fetch the last 30
lines of pane output whatever the status is. -/
def getClaudeCodeStatus (tasks : TaskMap) (taskId : String) (alive : Bool)
    (now : Nat) (capture : Nat → Option String) :
    TaskMap × Except String StatusReturn :=
  match mapGet tasks taskId with
  | none => (tasks, .error ("Task not found: " ++ taskId))
  | some task =>
    ((if task.status = .running ∧ hasSessionStdout alive = "done" then
        mapSet tasks taskId (reconciledTask task alive now)
      else tasks),
     .ok { status := (reconciledTask task alive now).status
           runtimeSeconds :=
             (jsOrNat (reconciledTask task alive now).endTime now
               - task.startTime) / 1000
           lastOutput := jsOrString (captureStdout (capture 30)) "(no output)" })

/-- getClaudeCodeOutput, claude-code.ts lines 146 to 172: same reconciliation
as getClaudeCodeStatus, then a capture of `lines || 500` lines. -/
def getClaudeCodeOutput (tasks : TaskMap) (taskId : String) (lines : Option Nat)
    (alive : Bool) (now : Nat) (capture : Nat → Option String) :
    TaskMap × Except String OutputReturn :=
  match mapGet tasks taskId with
  | none => (tasks, .error ("Task not found: " ++ taskId))
  | some task =>
    ((if task.status = .running ∧ hasSessionStdout alive = "done" then
        mapSet tasks taskId (reconciledTask task alive now)
      else tasks),
     .ok { output := jsOrString (captureStdout (capture (jsOrNat lines 500)))
             "(no output)"
           status := (reconciledTask task alive now).status })

/-- sendToClaudeCode, claude-code.ts lines 177 to 209. -/
def sendToClaudeCode (tasks : TaskMap) (taskId message : String) (alive : Bool)
    (now : Nat) (sendResult : ExecResult) : TaskMap × SendReturn :=
  match mapGet tasks taskId with
  | none => (tasks, ⟨false, some ("Task not found: " ++ taskId)⟩)
  | some task =>
    if task.status ≠ .running then
      (tasks, ⟨false, some ("Task is not running (status: "
        ++ statusString task.status ++ ")")⟩)
    else if hasSessionStdout alive = "done" then
      (mapSet tasks taskId { task with status := .completed, endTime := some now },
       ⟨false, some "Task has already completed"⟩)
    else if sendResult.exitCode ≠ 0 then
      (tasks, ⟨false, some ("Failed to send: " ++ sendResult.stderr)⟩)
    else
      (tasks, ⟨true, none⟩)

/-- listClaudeCodeSessions, claude-code.ts lines 214 to 243: first reconcile
every running task against its own session liveness, then snapshot all tasks.
The message parameter alive gives the liveness probe result per tmux session
name. -/
def listClaudeCodeSessions (tasks : TaskMap) (alive : String → Bool)
    (now : Nat) : TaskMap × List SessionSummary :=
  let tasks2 := tasks.map (fun p =>
    (p.1, reconciledTask p.2 (alive p.2.tmuxSession) now))
  (tasks2, tasks2.map (fun p =>
    { taskId := p.2.taskId
      prompt := p.2.prompt.take 100
        ++ (if p.2.prompt.length > 100 then "..." else "")
      status := p.2.status
      runtimeSeconds := (jsOrNat p.2.endTime now - p.2.startTime) / 1000
      workingDirectory := p.2.workingDirectory }))

/-- stopClaudeCodeTask, claude-code.ts lines 248 to 267: fails on an unknown
or non-running task; otherwise issues the kill-session command, IGNORES its
result (killResult is unused, exactly as in the source), and unconditionally
marks the task stopped with endTime stamped. -/
def stopClaudeCodeTask (tasks : TaskMap) (taskId : String)
    (killResult : ExecResult) (now : Nat) : TaskMap × StopReturn :=
  match mapGet tasks taskId with
  | none => (tasks, ⟨false, some ("Task not found: " ++ taskId)⟩)
  | some task =>
    if task.status ≠ .running then
      (tasks, ⟨false, some ("Task is not running (status: "
        ++ statusString task.status ++ ")")⟩)
    else
      (mapSet tasks taskId { task with status := .stopped, endTime := some now },
       ⟨true, none⟩)

/-- External observations consumed by one start call: the two clock reads at
creation (lines 42 and 51), the tmux new-session result (line 63), the clock
read stamped on failure (line 69), the clock read taken before the wait loop
(line 83), then per wait-loop iteration the clock read of the loop condition
together with the liveness probe result (lines 86 to 88), and finally the
observations of the getClaudeCodeOutput call made when the loop sees the
session end (line 95). -/
structure StartObs where
  nowId : Nat
  nowStart : Nat
  createResult : ExecResult
  nowFail : Nat
  waitStart : Nat
  polls : List (Nat × Bool)
  finalAlive : Bool
  finalCapture : Nat → Option String

/-- The task record built by claude-code.ts lines 46 to 53. -/
def freshTask (prompt workingDirectory : String) (nowId nowStart : Nat) :
    ClaudeCodeTask :=
  { taskId := generateTaskId nowId
    prompt := prompt
    workingDirectory := workingDirectory
    status := .running
    startTime := nowStart
    endTime := none
    exitCode := none
    tmuxSession := getTmuxSession (generateTaskId nowId) }

/-- The wait loop of claude-code.ts lines 86 to 105.  Each list entry is one
iteration: the Date.now() value read in the loop condition and the liveness
probe result of that iteration.  When the probe reports the session gone the
loop marks the task completed WITHOUT first checking that the task is still
recorded as running (lines 90 to 93 assign unconditionally), fetches the
final output through getClaudeCodeOutput, and returns.  An exhausted
observation list behaves like an expired loop condition: the timeout result
of line 105 is returned with no registry change. -/
def waitLoop (tasks : TaskMap) (taskId : String) (startT timeoutMs : Nat)
    (finalAlive : Bool) (finalCapture : Nat → Option String) :
    List (Nat × Bool) → TaskMap × StartReturn
  | [] => (tasks, ⟨taskId, .running, some "Task still running after timeout"⟩)
  | (t, alive) :: rest =>
    if t - startT < timeoutMs then
      if hasSessionStdout alive = "done" then
        let tasks2 := markTask tasks taskId .completed t
        let r := getClaudeCodeOutput tasks2 taskId none finalAlive t finalCapture
        (r.1, ⟨taskId, .completed,
          some (match r.2 with
                | .ok o => o.output
                | .error _ => "(no output)")⟩)
      else
        waitLoop tasks taskId startT timeoutMs finalAlive finalCapture rest
    else
      (tasks, ⟨taskId, .running, some "Task still running after timeout"⟩)

/-- startClaudeCodeTask, claude-code.ts lines 36 to 106: register the fresh
task record, then branch on the tmux new-session result; on failure mark the
task failed and return a diagnostic without waiting; on success either return
running immediately or enter the wait loop. -/
def startClaudeCodeTask (tasks : TaskMap) (prompt workingDirectory : String)
    (waitForCompletion : Bool) (timeoutSeconds : Nat) (obs : StartObs) :
    TaskMap × StartReturn :=
  let taskId := generateTaskId obs.nowId
  let tasks1 := mapSet tasks taskId
    (freshTask prompt workingDirectory obs.nowId obs.nowStart)
  if obs.createResult.exitCode ≠ 0 then
    (markTask tasks1 taskId .failed obs.nowFail,
     ⟨taskId, .failed,
      some ("Failed to start tmux session: " ++ obs.createResult.stderr)⟩)
  else if waitForCompletion = false then
    (tasks1, ⟨taskId, .running, none⟩)
  else
    waitLoop tasks1 taskId obs.waitStart (timeoutSeconds * 1000)
      obs.finalAlive obs.finalCapture obs.polls

/-! ### Operation sequences -/

/-- One invocation of any of the six operations, together with the external
observations that invocation consumes. -/
inductive Op where
  | startOp (prompt workingDirectory : String) (waitForCompletion : Bool)
      (timeoutSeconds : Nat) (obs : StartObs)
  | statusOp (taskId : String) (alive : Bool) (now : Nat)
      (capture : Nat → Option String)
  | outputOp (taskId : String) (lines : Option Nat) (alive : Bool) (now : Nat)
      (capture : Nat → Option String)
  | sendOp (taskId message : String) (alive : Bool) (now : Nat)
      (sendResult : ExecResult)
  | listOp (alive : String → Bool) (now : Nat)
  | stopOp (taskId : String) (killResult : ExecResult) (now : Nat)

/-- Registry effect of one operation. -/
def applyOp (tasks : TaskMap) : Op → TaskMap
  | .startOp prompt wd wait timeout obs =>
    (startClaudeCodeTask tasks prompt wd wait timeout obs).1
  | .statusOp taskId alive now capture =>
    (getClaudeCodeStatus tasks taskId alive now capture).1
  | .outputOp taskId lines alive now capture =>
    (getClaudeCodeOutput tasks taskId lines alive now capture).1
  | .sendOp taskId message alive now sendResult =>
    (sendToClaudeCode tasks taskId message alive now sendResult).1
  | .listOp alive now => (listClaudeCodeSessions tasks alive now).1
  | .stopOp taskId killResult now =>
    (stopClaudeCodeTask tasks taskId killResult now).1

/-- Registry effect of a sequence of operations. -/
def run (tasks : TaskMap) : List Op → TaskMap
  | [] => tasks
  | op :: ops => run (applyOp tasks op) ops

/-- One invocation of a read operation (getClaudeCodeStatus or
getClaudeCodeOutput). -/
inductive ReadCall where
  | statusRead (taskId : String) (alive : Bool) (now : Nat)
      (capture : Nat → Option String)
  | outputRead (taskId : String) (lines : Option Nat) (alive : Bool) (now : Nat)
      (capture : Nat → Option String)

/-- Registry effect of one read operation. -/
def applyRead (tasks : TaskMap) : ReadCall → TaskMap
  | .statusRead taskId alive now capture =>
    (getClaudeCodeStatus tasks taskId alive now capture).1
  | .outputRead taskId lines alive now capture =>
    (getClaudeCodeOutput tasks taskId lines alive now capture).1

/-- Registry effect of a sequence of read operations. -/
def runReads (tasks : TaskMap) : List ReadCall → TaskMap
  | [] => tasks
  | r :: rs => runReads (applyRead tasks r) rs

/-- The endedAt invariant for one task record: endTime is present exactly when
the status is not running. -/
def endTimeInv (task : ClaudeCodeTask) : Prop :=
  task.endTime.isSome = true ↔ task.status ≠ .running

/-- The endedAt invariant over the whole registry. -/
def registryInv (tasks : TaskMap) : Prop :=
  ∀ p ∈ tasks, endTimeInv p.2

/-! ### Concrete scenarios -/

/-- Observations for a start call whose tmux new-session command fails with
exit code 1 and stderr boom: the task id clock reads 1000, the failure stamp
clock reads 2000. -/
def failObs : StartObs :=
  ⟨1000, 1000, ⟨"", "boom", 1⟩, 2000, 0, [], true, fun _ => none⟩

/-- The record left in the registry by a start call whose session creation
failed: the fresh record with status failed and endTime stamped. -/
def failedTask (prompt workingDirectory : String) (obs : StartObs) :
    ClaudeCodeTask :=
  { freshTask prompt workingDirectory obs.nowId obs.nowStart with
      status := .failed, endTime := some obs.nowFail }

/-- Observations of a start call created at millisecond 1000 whose session
creation succeeds; used by the interleaving scenario below. -/
def stopDuringWaitObs : StartObs :=
  ⟨1000, 1000, ⟨"", "", 0⟩, 0, 1000, [], true, fun _ => none⟩

/-- Interleaving scenario, step 1: the task is registered at millisecond 1000
with a successfully created session.  This is exactly the registry state a
start call with waitForCompletion true holds when it enters its wait loop. -/
def stopDuringWaitStart : TaskMap × StartReturn :=
  startClaudeCodeTask [] "long job" "/tmp" false 300 stopDuringWaitObs

/-- Interleaving scenario, step 2: while the wait loop of the start call
sleeps, stop kills the session at millisecond 2000 and marks the task
stopped. -/
def stopDuringWaitTasks : TaskMap :=
  (stopClaudeCodeTask stopDuringWaitStart.1 "task-1000" ⟨"", "", 0⟩ 2000).1

/-- Interleaving scenario, step 3: the next poll of the pending wait loop
(loop state: the task id, the captured loop start time 1000, the timeout of
300000 ms) runs at millisecond 3000 and finds the session gone. -/
def stopDuringWaitPoll : TaskMap × StartReturn :=
  waitLoop stopDuringWaitTasks "task-1000" 1000 300000 false (fun _ => none)
    [(3000, false)]

/-- Observations of two distinct start calls that both read the clock inside
the same millisecond 1000. -/
def collideObs : StartObs :=
  ⟨1000, 1000, ⟨"", "", 0⟩, 0, 0, [], true, fun _ => none⟩

/-- Registry and result of the first of the two colliding start calls. -/
def collideFirst : TaskMap × StartReturn :=
  startClaudeCodeTask [] "first" "/a" false 300 collideObs

/-- Registry and result of the second colliding start call, issued against the
registry left by the first one. -/
def collideSecond : TaskMap × StartReturn :=
  startClaudeCodeTask collideFirst.1 "second" "/b" false 300 collideObs

/-- A sample running task record, as registered by a successful start at
millisecond 1000. -/
def sampleRunning : ClaudeCodeTask :=
  { taskId := "t1"
    prompt := "do the thing"
    workingDirectory := "/w"
    status := .running
    startTime := 1000
    endTime := none
    exitCode := none
    tmuxSession := "claude-t1" }

/-- Observations of a start call in wait mode whose session stays alive at
every poll inside the two-second timeout window. -/
def waitObs : StartObs :=
  ⟨1000, 1000, ⟨"", "", 0⟩, 0, 1000, [(1500, true), (2200, true)], true,
   fun _ => none⟩

/-! ## Theorems -/

/-- Decoding an alphabet character recovers its sextet value. -/
theorem charSextet_sextetChar : ∀ n, n < 64 → charSextet (sextetChar n) = n := by
  decide

/-- No alphabet character is the padding character. -/
theorem sextetChar_ne_pad : ∀ n, n < 64 → sextetChar n ≠ '=' := by
  decide

/-- The decode step of the launch command inverts the encode step on every
byte sequence. -/
theorem b64DecodeChars_b64EncodeBytes :
    ∀ bs : List Nat, (∀ b ∈ bs, b < 256) →
      b64DecodeChars (b64EncodeBytes bs) = bs
  | a :: b :: c :: rest, h => by
    have ha : a < 256 := h a (by simp)
    have hb : b < 256 := h b (by simp)
    have hc : c < 256 := h c (by simp)
    have h1 := charSextet_sextetChar (a / 4) (by omega)
    have h2 := charSextet_sextetChar ((a % 4) * 16 + b / 16) (by omega)
    have h3 := charSextet_sextetChar ((b % 16) * 4 + c / 64) (by omega)
    have h4 := charSextet_sextetChar (c % 64) (by omega)
    have hrest := b64DecodeChars_b64EncodeBytes rest
      (fun x hx => h x (by simp [hx]))
    simp only [b64EncodeBytes, b64DecodeChars,
      if_neg (sextetChar_ne_pad (c % 64) (by omega)), h1, h2, h3, h4,
      List.cons.injEq]
    exact ⟨by omega, by omega, by omega, hrest⟩
  | [a, b], h => by
    have ha : a < 256 := h a (by simp)
    have hb : b < 256 := h b (by simp)
    have h1 := charSextet_sextetChar (a / 4) (by omega)
    have h2 := charSextet_sextetChar ((a % 4) * 16 + b / 16) (by omega)
    have h3 := charSextet_sextetChar ((b % 16) * 4) (by omega)
    simp only [b64EncodeBytes, b64DecodeChars, if_true,
      if_neg (sextetChar_ne_pad ((b % 16) * 4) (by omega)), h1, h2, h3,
      List.cons.injEq, and_true]
    exact ⟨by omega, by omega⟩
  | [a], h => by
    have ha : a < 256 := h a (by simp)
    have h1 := charSextet_sextetChar (a / 4) (by omega)
    have h2 := charSextet_sextetChar ((a % 4) * 16) (by omega)
    simp only [b64EncodeBytes, b64DecodeChars, if_true, h1, h2,
      List.cons.injEq, and_true]
    omega
  | [], _ => rfl

/-! ### Registry map lemmas -/

theorem mapGet_mapSet_self (m : TaskMap) (k : String) (v : ClaudeCodeTask) :
    mapGet (mapSet m k v) k = some v := by
  induction m with
  | nil => simp [mapGet, mapSet]
  | cons p rest ih =>
    obtain ⟨q, w⟩ := p
    by_cases hq : q = k
    · subst hq; simp [mapGet, mapSet]
    · simp [mapGet, mapSet, hq, ih]

theorem mapGet_mapSet_ne (m : TaskMap) (k k2 : String) (v : ClaudeCodeTask)
    (h : k ≠ k2) : mapGet (mapSet m k v) k2 = mapGet m k2 := by
  induction m with
  | nil => simp [mapGet, mapSet, h]
  | cons p rest ih =>
    obtain ⟨q, w⟩ := p
    by_cases hq : q = k
    · subst hq; simp [mapGet, mapSet, h]
    · simp [mapGet, mapSet, hq, ih]

theorem mapGet_mapSet_isSome (m : TaskMap) (k k2 : String) (v : ClaudeCodeTask)
    (h : (mapGet m k2).isSome) : (mapGet (mapSet m k v) k2).isSome := by
  by_cases hk : k = k2
  · subst hk; rw [mapGet_mapSet_self]; rfl
  · rwa [mapGet_mapSet_ne _ _ _ _ hk]

theorem mapGet_mem (m : TaskMap) (k : String) (task : ClaudeCodeTask)
    (h : mapGet m k = some task) : (k, task) ∈ m := by
  induction m with
  | nil => simp [mapGet] at h
  | cons p rest ih =>
    obtain ⟨q, w⟩ := p
    by_cases hq : q = k
    · subst hq
      simp [mapGet] at h
      simp [h]
    · simp only [mapGet, if_neg hq] at h
      exact List.mem_cons_of_mem _ (ih h)

theorem mapGet_markTask_isSome (m : TaskMap) (k : String) (st : TaskStatus)
    (t : Nat) (h : (mapGet m k).isSome) :
    (mapGet (markTask m k st t) k).isSome := by
  unfold markTask
  cases hg : mapGet m k with
  | none => rw [hg] at h; simp at h
  | some task => rw [mapGet_mapSet_self]; rfl

/-! ### Preservation of the endedAt invariant -/

theorem registryInv_mapSet {m : TaskMap} {k : String} {v : ClaudeCodeTask}
    (h : registryInv m) (hv : endTimeInv v) : registryInv (mapSet m k v) := by
  induction m with
  | nil =>
    intro p hp
    simp [mapSet] at hp
    rw [hp]
    exact hv
  | cons q rest ih =>
    obtain ⟨q1, q2⟩ := q
    have h1 : endTimeInv q2 := h (q1, q2) (by simp)
    have h2 : registryInv rest := fun p hp => h p (by simp [hp])
    by_cases hq : q1 = k
    · subst hq
      intro p hp
      simp [mapSet] at hp
      rcases hp with hp | hp
      · rw [hp]; exact hv
      · exact h2 p hp
    · intro p hp
      simp [mapSet, hq] at hp
      rcases hp with hp | hp
      · rw [hp]; exact h1
      · exact ih h2 p hp

theorem registryInv_markTask {m : TaskMap} {k : String} {st : TaskStatus}
    {t : Nat} (h : registryInv m) (hst : st ≠ .running) :
    registryInv (markTask m k st t) := by
  unfold markTask
  cases hg : mapGet m k with
  | none => exact h
  | some task =>
    refine registryInv_mapSet h ?_
    simp [endTimeInv, hst]

theorem endTimeInv_reconciledTask {task : ClaudeCodeTask} (h : endTimeInv task)
    (alive : Bool) (now : Nat) :
    endTimeInv (reconciledTask task alive now) := by
  unfold reconciledTask
  split
  · simp [endTimeInv]
  · exact h

theorem registryInv_getStatus (tasks : TaskMap) (taskId : String)
    (alive : Bool) (now : Nat) (capture : Nat → Option String)
    (h : registryInv tasks) :
    registryInv (getClaudeCodeStatus tasks taskId alive now capture).1 := by
  unfold getClaudeCodeStatus
  cases hg : mapGet tasks taskId with
  | none => exact h
  | some task =>
    simp only
    split
    · exact registryInv_mapSet h
        (endTimeInv_reconciledTask (h (taskId, task) (mapGet_mem _ _ _ hg)) _ _)
    · exact h

theorem registryInv_getOutput (tasks : TaskMap) (taskId : String)
    (lines : Option Nat) (alive : Bool) (now : Nat)
    (capture : Nat → Option String) (h : registryInv tasks) :
    registryInv (getClaudeCodeOutput tasks taskId lines alive now capture).1 := by
  unfold getClaudeCodeOutput
  cases hg : mapGet tasks taskId with
  | none => exact h
  | some task =>
    simp only
    split
    · exact registryInv_mapSet h
        (endTimeInv_reconciledTask (h (taskId, task) (mapGet_mem _ _ _ hg)) _ _)
    · exact h

theorem registryInv_send (tasks : TaskMap) (taskId message : String)
    (alive : Bool) (now : Nat) (sendResult : ExecResult)
    (h : registryInv tasks) :
    registryInv (sendToClaudeCode tasks taskId message alive now sendResult).1 := by
  unfold sendToClaudeCode
  cases hg : mapGet tasks taskId with
  | none => exact h
  | some task =>
    simp only
    split
    · exact h
    · split
      · refine registryInv_mapSet h ?_
        simp [endTimeInv]
      · split
        · exact h
        · exact h

theorem registryInv_list (tasks : TaskMap) (alive : String → Bool) (now : Nat)
    (h : registryInv tasks) :
    registryInv (listClaudeCodeSessions tasks alive now).1 := by
  intro p hp
  simp only [listClaudeCodeSessions, List.mem_map] at hp
  obtain ⟨q, hq, hpe⟩ := hp
  rw [← hpe]
  exact endTimeInv_reconciledTask (h q hq) _ _

theorem registryInv_stop (tasks : TaskMap) (taskId : String)
    (killResult : ExecResult) (now : Nat) (h : registryInv tasks) :
    registryInv (stopClaudeCodeTask tasks taskId killResult now).1 := by
  unfold stopClaudeCodeTask
  cases hg : mapGet tasks taskId with
  | none => exact h
  | some task =>
    simp only
    split
    · exact h
    · refine registryInv_mapSet h ?_
      simp [endTimeInv]

theorem registryInv_waitLoop (polls : List (Nat × Bool)) (tasks : TaskMap)
    (taskId : String) (startT timeoutMs : Nat) (finalAlive : Bool)
    (finalCapture : Nat → Option String) (h : registryInv tasks) :
    registryInv
      (waitLoop tasks taskId startT timeoutMs finalAlive finalCapture polls).1 := by
  induction polls generalizing tasks with
  | nil => exact h
  | cons p rest ih =>
    obtain ⟨t, alive⟩ := p
    simp only [waitLoop]
    split
    · split
      · exact registryInv_getOutput _ _ _ _ _ _
          (registryInv_markTask h (by decide))
      · exact ih _ h
    · exact h

theorem registryInv_start (tasks : TaskMap) (prompt workingDirectory : String)
    (waitForCompletion : Bool) (timeoutSeconds : Nat) (obs : StartObs)
    (h : registryInv tasks) :
    registryInv
      (startClaudeCodeTask tasks prompt workingDirectory waitForCompletion
        timeoutSeconds obs).1 := by
  have h1 : registryInv (mapSet tasks (generateTaskId obs.nowId)
      (freshTask prompt workingDirectory obs.nowId obs.nowStart)) :=
    registryInv_mapSet h (by simp [endTimeInv, freshTask])
  unfold startClaudeCodeTask
  simp only
  split
  · exact registryInv_markTask h1 (by decide)
  · split
    · exact h1
    · exact registryInv_waitLoop _ _ _ _ _ _ _ h1

theorem registryInv_applyOp (tasks : TaskMap) (op : Op)
    (h : registryInv tasks) : registryInv (applyOp tasks op) := by
  cases op with
  | startOp prompt wd wait timeout obs => exact registryInv_start _ _ _ _ _ _ h
  | statusOp taskId alive now capture => exact registryInv_getStatus _ _ _ _ _ h
  | outputOp taskId lines alive now capture =>
    exact registryInv_getOutput _ _ _ _ _ _ h
  | sendOp taskId message alive now sendResult =>
    exact registryInv_send _ _ _ _ _ _ h
  | listOp alive now => exact registryInv_list _ _ _ h
  | stopOp taskId killResult now => exact registryInv_stop _ _ _ _ h

theorem registryInv_run (ops : List Op) (tasks : TaskMap)
    (h : registryInv tasks) : registryInv (run tasks ops) := by
  induction ops generalizing tasks with
  | nil => exact h
  | cons op ops ih => exact ih _ (registryInv_applyOp _ _ h)

/-! ### Read operations leave terminal tasks untouched -/

theorem getStatus_fst_preserves (tasks : TaskMap) (qid : String)
    (task : ClaudeCodeTask) (id : String) (alive : Bool) (now : Nat)
    (capture : Nat → Option String)
    (hg : mapGet tasks qid = some task) (hst : task.status ≠ .running) :
    mapGet (getClaudeCodeStatus tasks id alive now capture).1 qid = some task := by
  unfold getClaudeCodeStatus
  cases hg2 : mapGet tasks id with
  | none => exact hg
  | some task2 =>
    simp only
    split
    · rename_i hcond
      by_cases hid : id = qid
      · subst hid
        rw [hg] at hg2
        cases hg2
        exact absurd hcond.1 hst
      · rw [mapGet_mapSet_ne _ _ _ _ hid]
        exact hg
    · exact hg

theorem getOutput_fst_preserves (tasks : TaskMap) (qid : String)
    (task : ClaudeCodeTask) (id : String) (lines : Option Nat) (alive : Bool)
    (now : Nat) (capture : Nat → Option String)
    (hg : mapGet tasks qid = some task) (hst : task.status ≠ .running) :
    mapGet (getClaudeCodeOutput tasks id lines alive now capture).1 qid =
      some task := by
  unfold getClaudeCodeOutput
  cases hg2 : mapGet tasks id with
  | none => exact hg
  | some task2 =>
    simp only
    split
    · rename_i hcond
      by_cases hid : id = qid
      · subst hid
        rw [hg] at hg2
        cases hg2
        exact absurd hcond.1 hst
      · rw [mapGet_mapSet_ne _ _ _ _ hid]
        exact hg
    · exact hg

theorem applyRead_preserves (tasks : TaskMap) (r : ReadCall) (qid : String)
    (task : ClaudeCodeTask) (hg : mapGet tasks qid = some task)
    (hst : task.status ≠ .running) :
    mapGet (applyRead tasks r) qid = some task := by
  cases r with
  | statusRead id alive now capture =>
    exact getStatus_fst_preserves _ _ _ _ _ _ _ hg hst
  | outputRead id lines alive now capture =>
    exact getOutput_fst_preserves _ _ _ _ _ _ _ _ hg hst

theorem runReads_preserves (reads : List ReadCall) (tasks : TaskMap)
    (qid : String) (task : ClaudeCodeTask)
    (hg : mapGet tasks qid = some task) (hst : task.status ≠ .running) :
    mapGet (runReads tasks reads) qid = some task := by
  induction reads generalizing tasks with
  | nil => exact hg
  | cons r rs ih => exact ih _ (applyRead_preserves _ _ _ _ hg hst)

/-! ### Wait loop helpers -/

theorem waitLoop_all_alive (polls : List (Nat × Bool)) (tasks : TaskMap)
    (taskId : String) (startT timeoutMs : Nat) (finalAlive : Bool)
    (finalCapture : Nat → Option String)
    (h : ∀ p ∈ polls, p.2 = true) :
    waitLoop tasks taskId startT timeoutMs finalAlive finalCapture polls =
      (tasks, ⟨taskId, .running, some "Task still running after timeout"⟩) := by
  induction polls with
  | nil => rfl
  | cons p rest ih =>
    obtain ⟨t, alive⟩ := p
    have ha : alive = true := h (t, alive) (by simp)
    subst ha
    simp only [waitLoop]
    split
    · rw [if_neg (by decide)]
      exact ih (fun q hq => h q (by simp [hq]))
    · rfl

theorem waitLoop_taskId (polls : List (Nat × Bool)) (tasks : TaskMap)
    (taskId : String) (startT timeoutMs : Nat) (finalAlive : Bool)
    (finalCapture : Nat → Option String) :
    (waitLoop tasks taskId startT timeoutMs finalAlive finalCapture
      polls).2.taskId = taskId := by
  induction polls generalizing tasks with
  | nil => rfl
  | cons p rest ih =>
    obtain ⟨t, alive⟩ := p
    simp only [waitLoop]
    split
    · split
      · rfl
      · exact ih _
    · rfl

theorem mapGet_getOutput_isSome (tasks : TaskMap) (qid id : String)
    (lines : Option Nat) (alive : Bool) (now : Nat)
    (capture : Nat → Option String) (h : (mapGet tasks qid).isSome) :
    (mapGet (getClaudeCodeOutput tasks id lines alive now capture).1
      qid).isSome := by
  unfold getClaudeCodeOutput
  cases hg : mapGet tasks id with
  | none => exact h
  | some task =>
    simp only
    split
    · exact mapGet_mapSet_isSome _ _ _ _ h
    · exact h

theorem mapGet_waitLoop_isSome (polls : List (Nat × Bool)) (tasks : TaskMap)
    (taskId : String) (startT timeoutMs : Nat) (finalAlive : Bool)
    (finalCapture : Nat → Option String) (h : (mapGet tasks taskId).isSome) :
    (mapGet (waitLoop tasks taskId startT timeoutMs finalAlive finalCapture
      polls).1 taskId).isSome := by
  induction polls generalizing tasks with
  | nil => exact h
  | cons p rest ih =>
    obtain ⟨t, alive⟩ := p
    simp only [waitLoop]
    split
    · split
      · exact mapGet_getOutput_isSome _ _ _ _ _ _ _
          (mapGet_markTask_isSome _ _ _ _ h)
      · exact ih _ h
    · exact h

theorem start_taskId (tasks : TaskMap) (prompt workingDirectory : String)
    (waitForCompletion : Bool) (timeoutSeconds : Nat) (obs : StartObs) :
    (startClaudeCodeTask tasks prompt workingDirectory waitForCompletion
      timeoutSeconds obs).2.taskId = generateTaskId obs.nowId := by
  unfold startClaudeCodeTask
  simp only
  split
  · rfl
  · split
    · rfl
    · exact waitLoop_taskId _ _ _ _ _ _ _

theorem mapGet_start_isSome (tasks : TaskMap) (prompt workingDirectory : String)
    (waitForCompletion : Bool) (timeoutSeconds : Nat) (obs : StartObs) :
    (mapGet (startClaudeCodeTask tasks prompt workingDirectory waitForCompletion
      timeoutSeconds obs).1 (generateTaskId obs.nowId)).isSome := by
  have h1 : (mapGet (mapSet tasks (generateTaskId obs.nowId)
      (freshTask prompt workingDirectory obs.nowId obs.nowStart))
      (generateTaskId obs.nowId)).isSome := by
    rw [mapGet_mapSet_self]; rfl
  unfold startClaudeCodeTask
  simp only
  split
  · exact mapGet_markTask_isSome _ _ _ _ h1
  · split
    · exact h1
    · exact mapGet_waitLoop_isSome _ _ _ _ _ _ _ h1

theorem getStatus_isOk (tasks : TaskMap) (taskId : String) (alive : Bool)
    (now : Nat) (capture : Nat → Option String)
    (h : (mapGet tasks taskId).isSome) :
    exceptOk (getClaudeCodeStatus tasks taskId alive now capture).2 = true := by
  unfold getClaudeCodeStatus
  cases hg : mapGet tasks taskId with
  | none => rw [hg] at h; simp at h
  | some task =>
    simp only
    rfl

theorem jsOrNat_some_self (d : Nat) : jsOrNat (some d) d = d := by
  simp only [jsOrNat]
  split <;> rfl

theorem jsOrNat_eq_getD (o : Option Nat) (d : Nat) (h : o = some 0 → d = 0) :
    jsOrNat o d = o.getD d := by
  cases o with
  | none => rfl
  | some e =>
    simp only [jsOrNat, Option.getD_some]
    split
    · rename_i h0
      subst h0
      exact h rfl
    · rfl

theorem stop_running_eq (tasks : TaskMap) (taskId : String)
    (killResult : ExecResult) (now : Nat) (task : ClaudeCodeTask)
    (hg : mapGet tasks taskId = some task) (hr : task.status = .running) :
    stopClaudeCodeTask tasks taskId killResult now =
      (mapSet tasks taskId
        { task with status := .stopped, endTime := some now },
       ⟨true, none⟩) := by
  unfold stopClaudeCodeTask
  rw [hg]
  simp only
  rw [if_neg (by simp [hr])]

/-! ## Claim theorems -/

/-- C9: the transport encoding of the instruction payload is lossless: for
every byte sequence (so in particular for instruction text containing
embedded quotes, newlines, and shell special characters), the base64 decode
step in the launch command applied to the base64 encode step of
claude-code.ts line 57 returns the original bytes unchanged. -/
theorem instruction_transport_roundtrip (bs : List Nat)
    (h : ∀ b ∈ bs, b < 256) : b64DecodeChars (b64EncodeBytes bs) = bs :=
  b64DecodeChars_b64EncodeBytes bs h

/-- Witness for C9 on the UTF-8 bytes of a payload containing a double quote,
a newline, a backslash, a single quote, a dollar sign and a backtick. -/
theorem instruction_transport_roundtrip_witness :
    b64DecodeChars (b64EncodeBytes [34, 10, 92, 39, 36, 96, 104, 105]) =
      [34, 10, 92, 39, 36, 96, 104, 105] :=
  instruction_transport_roundtrip _ (by decide)

/-- C3: after any sequence of the six operations run from the empty registry,
every task record has endTime set exactly when its status is not running:
endTime is absent while the task is running, and every update that moves a
task out of running stamps endTime in the same update. -/
theorem endedAt_iff_not_running (ops : List Op) : registryInv (run [] ops) :=
  registryInv_run ops [] (fun p hp => absurd hp (List.not_mem_nil p))

/-- Witness for C3 on a concrete sequence: a failing start, a successful
start, a reconciling status read and a stop. -/
theorem endedAt_iff_not_running_witness :
    registryInv (run []
      [Op.startOp "a" "/w" false 300 ⟨5, 5, ⟨"", "no tmux", 1⟩, 6, 0, [], true,
        fun _ => none⟩,
       Op.startOp "b" "/w" false 300 ⟨9, 9, ⟨"", "", 0⟩, 0, 0, [], true,
        fun _ => none⟩,
       Op.statusOp "task-9" false 12 (fun _ => none),
       Op.stopOp "task-9" ⟨"", "", 0⟩ 15]) :=
  endedAt_iff_not_running _

/-- C1: the claim fails on the code.  getStatus, getOutput, send, list and
stop do leave Failed, Completed and Stopped tasks untouched, but the wait
loop of a start call with waitForCompletion true does not: lines 90 to 93 of
claude-code.ts assign status completed and a fresh endTime WITHOUT first
checking that the task is still recorded as running.  In the interleaving
where stop kills the session and marks the task stopped while the wait loop
sleeps, the next poll of the loop finds the session gone, re-marks the
stopped task completed, overwrites endTime, and hands status completed to
the waiting caller — the claim requires the caller to observe stopped and
the task never to be re-marked. -/
theorem wait_loop_remarks_stopped_task_completed :
    (mapGet stopDuringWaitTasks "task-1000").map ClaudeCodeTask.status =
        some .stopped ∧
    (mapGet stopDuringWaitTasks "task-1000").map ClaudeCodeTask.endTime =
        some (some 2000) ∧
    stopDuringWaitPoll.2.status = .completed ∧
    (mapGet stopDuringWaitPoll.1 "task-1000").map ClaudeCodeTask.status =
        some .completed ∧
    (mapGet stopDuringWaitPoll.1 "task-1000").map ClaudeCodeTask.endTime =
        some (some 3000) := by
  decide

/-- C2: the claim fails on the code.  generateTaskId on lines 24 to 26 of
claude-code.ts is the millisecond clock value, so two start calls that read
the clock inside the same millisecond obtain the same id, and the second
tasks.set overwrites the record of the first: afterwards the registry holds
a single record whose prompt is the second prompt.  The comment on line 23
documents the id as unique, so the code contradicts its own documentation. -/
theorem same_millisecond_starts_collide :
    collideFirst.2.taskId = "task-1000" ∧
    collideSecond.2.taskId = "task-1000" ∧
    (mapGet collideFirst.1 "task-1000").map ClaudeCodeTask.prompt =
        some "first" ∧
    (mapGet collideSecond.1 "task-1000").map ClaudeCodeTask.prompt =
        some "second" ∧
    collideSecond.1.length = 1 := by
  decide

/-- C4: stop on an unknown id or a non-running task returns stopped false
with an error and leaves the registry untouched; stop on a running task
returns stopped true and marks the task stopped with endTime stamped, for
EVERY possible result of the kill-session command (the source ignores
killResult); a second stop on the same task then returns stopped false with
the not-running error. -/
theorem stop_semantics (tasks : TaskMap) (taskId : String)
    (killResult killResult2 : ExecResult) (now now2 : Nat) :
    (mapGet tasks taskId = none →
      stopClaudeCodeTask tasks taskId killResult now =
        (tasks, ⟨false, some ("Task not found: " ++ taskId)⟩)) ∧
    (∀ task, mapGet tasks taskId = some task → task.status ≠ .running →
      stopClaudeCodeTask tasks taskId killResult now =
        (tasks, ⟨false, some ("Task is not running (status: "
          ++ statusString task.status ++ ")")⟩)) ∧
    (∀ task, mapGet tasks taskId = some task → task.status = .running →
      stopClaudeCodeTask tasks taskId killResult now =
        (mapSet tasks taskId
          { task with status := .stopped, endTime := some now },
         ⟨true, none⟩) ∧
      (stopClaudeCodeTask (stopClaudeCodeTask tasks taskId killResult now).1
          taskId killResult2 now2).2 =
        ⟨false, some "Task is not running (status: stopped)"⟩) := by
  refine ⟨?_, ?_, ?_⟩
  · intro hg
    unfold stopClaudeCodeTask
    rw [hg]
  · intro task hg hst
    unfold stopClaudeCodeTask
    rw [hg]
    simp only
    rw [if_pos hst]
  · intro task hg hr
    have h1 := stop_running_eq tasks taskId killResult now task hg hr
    refine ⟨h1, ?_⟩
    rw [h1]
    unfold stopClaudeCodeTask
    simp only
    rw [mapGet_mapSet_self]
    simp only
    rw [if_pos (by decide)]
    rfl

/-- Witness for C4: stopping a running task succeeds and marks it stopped
even though the kill-session command failed with exit code 1, and a second
stop fails with the not-running error. -/
theorem stop_semantics_witness :
    stopClaudeCodeTask [("t1", sampleRunning)] "t1" ⟨"", "kill failed", 1⟩ 7 =
      ([("t1", { sampleRunning with status := .stopped, endTime := some 7 })],
       ⟨true, none⟩) ∧
    (stopClaudeCodeTask (stopClaudeCodeTask [("t1", sampleRunning)] "t1"
        ⟨"", "kill failed", 1⟩ 7).1 "t1" ⟨"", "", 0⟩ 9).2 =
      ⟨false, some "Task is not running (status: stopped)"⟩ := by
  have h := (stop_semantics [("t1", sampleRunning)] "t1" ⟨"", "kill failed", 1⟩
    ⟨"", "", 0⟩ 7 9).2.2 sampleRunning (by decide) (by decide)
  exact ⟨h.1.trans (by decide), h.2⟩

/-- C5: send on an unknown id or a non-running task returns sent false with
an error and mutates nothing; send on a task recorded running whose session
is gone transitions the task to completed with endTime stamped and returns
sent false with the already-completed error instead of delivering; otherwise
the registry is unchanged and sent is true exactly when the send-keys
command exited with code 0. -/
theorem send_semantics (tasks : TaskMap) (taskId message : String)
    (alive : Bool) (now : Nat) (sendResult : ExecResult) :
    (mapGet tasks taskId = none →
      sendToClaudeCode tasks taskId message alive now sendResult =
        (tasks, ⟨false, some ("Task not found: " ++ taskId)⟩)) ∧
    (∀ task, mapGet tasks taskId = some task → task.status ≠ .running →
      sendToClaudeCode tasks taskId message alive now sendResult =
        (tasks, ⟨false, some ("Task is not running (status: "
          ++ statusString task.status ++ ")")⟩)) ∧
    (∀ task, mapGet tasks taskId = some task → task.status = .running →
      alive = false →
      sendToClaudeCode tasks taskId message alive now sendResult =
        (mapSet tasks taskId
          { task with status := .completed, endTime := some now },
         ⟨false, some "Task has already completed"⟩)) ∧
    (∀ task, mapGet tasks taskId = some task → task.status = .running →
      alive = true →
      (sendToClaudeCode tasks taskId message alive now sendResult).1 = tasks ∧
      ((sendToClaudeCode tasks taskId message alive now sendResult).2.sent =
          true ↔ sendResult.exitCode = 0)) := by
  refine ⟨?_, ?_, ?_, ?_⟩
  · intro hg
    unfold sendToClaudeCode
    rw [hg]
  · intro task hg hst
    unfold sendToClaudeCode
    rw [hg]
    simp only
    rw [if_pos hst]
  · intro task hg hr hal
    subst hal
    unfold sendToClaudeCode
    rw [hg]
    simp only
    rw [if_neg (by simp [hr]),
      if_pos (show hasSessionStdout false = "done" by decide)]
  · intro task hg hr hal
    subst hal
    unfold sendToClaudeCode
    rw [hg]
    simp only
    rw [if_neg (by simp [hr]), if_neg (by decide)]
    by_cases he : sendResult.exitCode = 0
    · rw [if_neg (by simp [he])]
      simp [he]
    · rw [if_pos he]
      simp [he]

/-- Witness for C5: send on a running task whose session has ended completes
the task and reports sent false. -/
theorem send_semantics_witness :
    sendToClaudeCode [("t1", sampleRunning)] "t1" "hello" false 9
        ⟨"", "", 0⟩ =
      ([("t1", { sampleRunning with status := .completed, endTime := some 9 })],
       ⟨false, some "Task has already completed"⟩) := by
  have h := (send_semantics [("t1", sampleRunning)] "t1" "hello" false 9
    ⟨"", "", 0⟩).2.2.1 sampleRunning (by decide) (by decide) rfl
  exact h.trans (by decide)

/-- C10: stop consults no liveness observation at all (its model takes none),
so on a task recorded running whose session has already ended it still
returns stopped true and marks the task stopped, not completed — whereas
send on the same registry state reconciles first, marking the task completed
and reporting sent false. -/
theorem stop_skips_liveness_reconciliation (tasks : TaskMap)
    (taskId message : String) (task : ClaudeCodeTask)
    (killResult sendResult : ExecResult) (now : Nat)
    (hg : mapGet tasks taskId = some task) (hr : task.status = .running) :
    (stopClaudeCodeTask tasks taskId killResult now).2 = ⟨true, none⟩ ∧
    mapGet (stopClaudeCodeTask tasks taskId killResult now).1 taskId =
      some { task with status := .stopped, endTime := some now } ∧
    (sendToClaudeCode tasks taskId message false now sendResult).2 =
      ⟨false, some "Task has already completed"⟩ ∧
    mapGet (sendToClaudeCode tasks taskId message false now sendResult).1
        taskId =
      some { task with status := .completed, endTime := some now } := by
  have hstop := stop_running_eq tasks taskId killResult now task hg hr
  have hsend : sendToClaudeCode tasks taskId message false now sendResult =
      (mapSet tasks taskId
        { task with status := .completed, endTime := some now },
       ⟨false, some "Task has already completed"⟩) := by
    unfold sendToClaudeCode
    rw [hg]
    simp only
    rw [if_neg (by simp [hr]),
      if_pos (show hasSessionStdout false = "done" by decide)]
  refine ⟨?_, ?_, ?_, ?_⟩
  · rw [hstop]
  · rw [hstop]
    exact mapGet_mapSet_self _ _ _
  · rw [hsend]
  · rw [hsend]
    exact mapGet_mapSet_self _ _ _

/-- Witness for C10: with the session already gone, stop still marks the
sample running task stopped while send would have completed it. -/
theorem stop_skips_liveness_reconciliation_witness :
    (stopClaudeCodeTask [("t1", sampleRunning)] "t1" ⟨"", "", 1⟩ 11).2 =
      ⟨true, none⟩ ∧
    (mapGet (stopClaudeCodeTask [("t1", sampleRunning)] "t1" ⟨"", "", 1⟩
        11).1 "t1").map ClaudeCodeTask.status = some .stopped ∧
    (sendToClaudeCode [("t1", sampleRunning)] "t1" "msg" false 11
        ⟨"", "", 0⟩).2 = ⟨false, some "Task has already completed"⟩ ∧
    (mapGet (sendToClaudeCode [("t1", sampleRunning)] "t1" "msg" false 11
        ⟨"", "", 0⟩).1 "t1").map ClaudeCodeTask.status = some .completed := by
  have h := stop_skips_liveness_reconciliation [("t1", sampleRunning)] "t1"
    "msg" sampleRunning ⟨"", "", 1⟩ ⟨"", "", 0⟩ 11 (by decide) (by decide)
  refine ⟨h.1, ?_, h.2.2.1, ?_⟩
  · rw [h.2.1]; decide
  · rw [h.2.2.2]; decide

/-- C6: every start call registers a record under the returned id before
returning, so an immediately following getStatus on that id never reports
the not-found error; and when session creation fails the registered record
is the fresh record marked failed with endTime stamped, the returned value
carries status failed with the diagnostic message, the wait-loop
observations are never consumed (the result is the same as with an empty
poll list, i.e. no waiting occurs) even when waitForCompletion is true, and
the record stays exactly this failed record under any number of subsequent
getStatus or getOutput calls. -/
theorem start_registers_and_failure_is_terminal (tasks : TaskMap)
    (prompt workingDirectory : String) (waitForCompletion : Bool)
    (timeoutSeconds : Nat) (obs : StartObs) (alive : Bool) (now : Nat)
    (capture : Nat → Option String) :
    exceptOk (getClaudeCodeStatus
      (startClaudeCodeTask tasks prompt workingDirectory waitForCompletion
        timeoutSeconds obs).1
      (startClaudeCodeTask tasks prompt workingDirectory waitForCompletion
        timeoutSeconds obs).2.taskId alive now capture).2 = true ∧
    (obs.createResult.exitCode ≠ 0 →
      (startClaudeCodeTask tasks prompt workingDirectory waitForCompletion
          timeoutSeconds obs).2 =
        ⟨generateTaskId obs.nowId, .failed,
         some ("Failed to start tmux session: " ++ obs.createResult.stderr)⟩ ∧
      mapGet (startClaudeCodeTask tasks prompt workingDirectory
          waitForCompletion timeoutSeconds obs).1 (generateTaskId obs.nowId) =
        some (failedTask prompt workingDirectory obs) ∧
      startClaudeCodeTask tasks prompt workingDirectory waitForCompletion
          timeoutSeconds obs =
        startClaudeCodeTask tasks prompt workingDirectory waitForCompletion
          timeoutSeconds { obs with polls := [] } ∧
      (∀ reads : List ReadCall,
        mapGet (runReads (startClaudeCodeTask tasks prompt workingDirectory
            waitForCompletion timeoutSeconds obs).1 reads)
          (generateTaskId obs.nowId) =
        some (failedTask prompt workingDirectory obs))) := by
  constructor
  · rw [start_taskId]
    exact getStatus_isOk _ _ _ _ _ (mapGet_start_isSome _ _ _ _ _ _)
  · intro hc
    have he : startClaudeCodeTask tasks prompt workingDirectory
        waitForCompletion timeoutSeconds obs =
        (markTask (mapSet tasks (generateTaskId obs.nowId)
           (freshTask prompt workingDirectory obs.nowId obs.nowStart))
          (generateTaskId obs.nowId) .failed obs.nowFail,
         ⟨generateTaskId obs.nowId, .failed,
          some ("Failed to start tmux session: "
            ++ obs.createResult.stderr)⟩) := by
      unfold startClaudeCodeTask
      simp only
      rw [if_pos hc]
    have hm : mapGet (startClaudeCodeTask tasks prompt workingDirectory
        waitForCompletion timeoutSeconds obs).1 (generateTaskId obs.nowId) =
        some (failedTask prompt workingDirectory obs) := by
      rw [he]
      show mapGet (markTask _ _ _ _) _ = _
      unfold markTask
      rw [mapGet_mapSet_self]
      simp only
      rw [mapGet_mapSet_self]
      rfl
    refine ⟨by rw [he], hm, ?_, ?_⟩
    · rw [he]
      unfold startClaudeCodeTask
      simp only
      rw [if_pos hc]
    · intro reads
      exact runReads_preserves _ _ _ _ hm (by simp [failedTask, freshTask])

/-- Witness for C6: a start whose tmux new-session command fails registers a
failed record that survives a status read and an output read. -/
theorem start_registers_and_failure_is_terminal_witness :
    mapGet (runReads (startClaudeCodeTask [] "p" "/w" true 300 failObs).1
      [ReadCall.statusRead "task-1000" false 5 (fun _ => none),
       ReadCall.outputRead "task-1000" none false 6 (fun _ => none)])
      "task-1000" = some (failedTask "p" "/w" failObs) := by
  have h := (start_registers_and_failure_is_terminal [] "p" "/w" true 300
    failObs false 5 (fun _ => none)).2 (by decide)
  exact h.2.2.2 _

/-- C7: a start in wait mode whose session is alive at every poll returns the
running status with the timeout note and leaves the registry exactly as it
was after registration: the task record keeps status running with no
endTime; a later getStatus that observes the session gone then returns
status completed with runtimeSeconds computed from that moment. -/
theorem wait_timeout_keeps_task_running (tasks : TaskMap)
    (prompt workingDirectory : String) (timeoutSeconds : Nat) (obs : StartObs)
    (now2 : Nat) (capture2 : Nat → Option String)
    (hc : obs.createResult.exitCode = 0)
    (halive : ∀ p ∈ obs.polls, p.2 = true) :
    startClaudeCodeTask tasks prompt workingDirectory true timeoutSeconds
        obs =
      (mapSet tasks (generateTaskId obs.nowId)
        (freshTask prompt workingDirectory obs.nowId obs.nowStart),
       ⟨generateTaskId obs.nowId, .running,
        some "Task still running after timeout"⟩) ∧
    (getClaudeCodeStatus
      (startClaudeCodeTask tasks prompt workingDirectory true timeoutSeconds
        obs).1 (generateTaskId obs.nowId) false now2 capture2).2 =
      .ok { status := .completed
            runtimeSeconds := (now2 - obs.nowStart) / 1000
            lastOutput := jsOrString (captureStdout (capture2 30))
              "(no output)" } := by
  have he : startClaudeCodeTask tasks prompt workingDirectory true
      timeoutSeconds obs =
      (mapSet tasks (generateTaskId obs.nowId)
        (freshTask prompt workingDirectory obs.nowId obs.nowStart),
       ⟨generateTaskId obs.nowId, .running,
        some "Task still running after timeout"⟩) := by
    unfold startClaudeCodeTask
    simp only
    rw [if_neg (by simp [hc]), if_neg (by decide)]
    exact waitLoop_all_alive _ _ _ _ _ _ _ halive
  refine ⟨he, ?_⟩
  rw [he]
  show (getClaudeCodeStatus (mapSet tasks (generateTaskId obs.nowId)
    (freshTask prompt workingDirectory obs.nowId obs.nowStart))
    (generateTaskId obs.nowId) false now2 capture2).2 = _
  have hcond : (freshTask prompt workingDirectory obs.nowId
      obs.nowStart).status = .running ∧ hasSessionStdout false = "done" :=
    ⟨rfl, rfl⟩
  unfold getClaudeCodeStatus
  rw [mapGet_mapSet_self]
  simp only
  unfold reconciledTask
  rw [if_pos hcond]
  simp only
  rw [jsOrNat_some_self]
  rfl

/-- Witness for C7: with two alive polls inside a two-second timeout the
start returns the running status and the note, and a status read at ms 5000
that finds the session gone reports completed with a four-second runtime. -/
theorem wait_timeout_keeps_task_running_witness :
    (getClaudeCodeStatus (startClaudeCodeTask [] "p" "/w" true 2 waitObs).1
      (generateTaskId 1000) false 5000 (fun _ => none)).2 =
      .ok { status := .completed, runtimeSeconds := 4,
            lastOutput := "(session ended)" } := by
  have h := wait_timeout_keeps_task_running [] "p" "/w" 2 waitObs 5000
    (fun _ => none) rfl (by decide)
  exact h.2.trans (by rfl)

/-- C8: on a known id, getStatus returns an ok payload whose status is the
reconciled status, whose runtimeSeconds is ((endedAt if set, else now) minus
startedAt) in whole seconds, and whose lastOutput is derived from a capture
of the last 30 lines whatever the status is; when the task was recorded
running and the session is gone the registry record is transitioned to
completed with endTime stamped to now before the runtime is computed; a
failed capture yields the sentinel text instead of an error.  The hypothesis
that endTime is not the literal millisecond 0 reflects that Date.now() is
never 0; at 0 the JavaScript falsy check would use now instead. -/
theorem getStatus_reconciles_and_reports (tasks : TaskMap) (taskId : String)
    (task : ClaudeCodeTask) (alive : Bool) (now : Nat)
    (capture : Nat → Option String) (hg : mapGet tasks taskId = some task)
    (he : task.endTime ≠ some 0) :
    (getClaudeCodeStatus tasks taskId alive now capture).2 =
      .ok { status := (reconciledTask task alive now).status
            runtimeSeconds :=
              (((reconciledTask task alive now).endTime.getD now)
                - task.startTime) / 1000
            lastOutput := jsOrString (captureStdout (capture 30))
              "(no output)" } ∧
    (task.status = .running → alive = false →
      mapGet (getClaudeCodeStatus tasks taskId alive now capture).1 taskId =
        some { task with status := .completed, endTime := some now } ∧
      (reconciledTask task alive now).endTime = some now) ∧
    (capture 30 = none →
      jsOrString (captureStdout (capture 30)) "(no output)" =
        "(session ended)") := by
  refine ⟨?_, ?_, ?_⟩
  · have hside : (reconciledTask task alive now).endTime = some 0 →
        now = 0 := by
      unfold reconciledTask
      split
      · intro h0
        simpa using h0
      · intro h0
        exact absurd h0 he
    unfold getClaudeCodeStatus
    rw [hg]
    simp only
    rw [jsOrNat_eq_getD _ _ hside]
  · intro hr hal
    subst hal
    have hcond : task.status = .running ∧ hasSessionStdout false = "done" :=
      ⟨hr, rfl⟩
    constructor
    · unfold getClaudeCodeStatus
      rw [hg]
      simp only
      rw [if_pos hcond, mapGet_mapSet_self]
      unfold reconciledTask
      rw [if_pos hcond]
    · unfold reconciledTask
      rw [if_pos hcond]
  · intro hcap
    rw [hcap]
    decide

/-- Witness for C8: a status read at ms 5000 on the sample running task whose
session is gone and whose capture fails reports completed, a four-second
runtime and the sentinel text, and stamps the record completed. -/
theorem getStatus_reconciles_and_reports_witness :
    (getClaudeCodeStatus [("t1", sampleRunning)] "t1" false 5000
      (fun _ => none)).2 =
      .ok { status := .completed, runtimeSeconds := 4,
            lastOutput := "(session ended)" } ∧
    (mapGet (getClaudeCodeStatus [("t1", sampleRunning)] "t1" false 5000
      (fun _ => none)).1 "t1").map ClaudeCodeTask.endTime =
      some (some 5000) := by
  have h := getStatus_reconciles_and_reports [("t1", sampleRunning)] "t1"
    sampleRunning false 5000 (fun _ => none) (by decide) (by decide)
  refine ⟨h.1.trans (by rfl), ?_⟩
  rw [(h.2.1 (by decide) rfl).1]
  decide

end VoiceMcp
